import Mathlib

set_option autoImplicit false

namespace PushEvent

/-- A ws Sender handle: an opaque send-capable reference to one connection,
identified by its connection token (Sender.token() in ws). Clones of the same
connection's Sender share the token. -/
structure Sender where
  token : Nat
deriving DecidableEq, Repr

/-- Modelled from the spec: the Event used by the dispatcher in
src/src/server.rs, which calls event.get_res() and event.build(); the res
field and the get_res accessor are missing from the Event struct in
src/src/lib.rs (mid-rewrite), so res follows the spec's "a (resource path,
serialized payload) pair". The inner field is the one of src/src/lib.rs. -/
structure Event where
  res : String
  inner : String
deriving DecidableEq, Repr

/-- Event::new from src/src/lib.rs: serializes eagerly at construction and
stores the resulting String in the inner field (the res argument is the
spec-modelled resource path, see Event). -/
def Event.new {α : Type} (serialize : α → String) (res : String) (x : α) : Event :=
  ⟨res, serialize x⟩

/-- Modelled from the spec: accessor for the resource path, called by the
dispatcher loop in src/src/server.rs but absent from src/src/lib.rs. -/
def Event.get_res (e : Event) : String :=
  e.res

/-- Event::build from src/src/lib.rs: returns a clone of the stored inner
String; it does not call serialize. -/
def Event.build (e : Event) : String :=
  e.inner

/-- Instrumented serialization: each invocation of the caller-supplied
serialize bumps a call counter, so we can count how often construction and
build invoke it. -/
def serializeCounted {α : Type} (serialize : α → String) (x : α) (calls : Nat) :
    String × Nat :=
  (serialize x, calls + 1)

/-- Event::new with the call counter threaded through: exactly one
serializeCounted call (the body of new in src/src/lib.rs has the single
inner.serialize() call). -/
def Event.newCounted {α : Type} (serialize : α → String) (res : String) (x : α)
    (calls : Nat) : Event × Nat :=
  let r := serializeCounted serialize x calls
  (⟨res, r.1⟩, r.2)

/-- Event::build with the call counter threaded through: build clones
self.inner and performs no serialize call, so the counter is untouched. -/
def Event.buildCounted (e : Event) (calls : Nat) : String × Nat :=
  (e.inner, calls)

/-- ServerInner from src/src/server.rs: the HashMap from resource path to the
vector of subscribed client Senders, embedded as an association list (the
HashMap's key uniqueness holds on states reachable by add_client from the
empty registry, but no theorem below needs it). -/
structure ServerInner where
  clients : List (String × List Sender)
deriving DecidableEq, Repr

/-- HashMap::get on the association list: the value of the first pair whose
key equals res, if any. -/
def lookupRes (l : List (String × List Sender)) (res : String) :
    Option (List Sender) :=
  match l with
  | [] => none
  | p :: rest => if p.1 = res then some p.2 else lookupRes rest res

/-- ServerInner::add_client from src/src/server.rs: if the resource already
has an entry, push the cloned sender onto its vector; otherwise insert a fresh
singleton vector under the resource key. -/
def ServerInner.add_client (S : ServerInner) (res : String) (sender : Sender) :
    ServerInner :=
  match lookupRes S.clients res with
  | some _ =>
      ⟨S.clients.map (fun p => if p.1 = res then (p.1, p.2 ++ [sender]) else p)⟩
  | none => ⟨S.clients ++ [(res, [sender])]⟩

/-- ServerInner::remove_client from src/src/server.rs, embedded exactly as
written: for every resource's vector it calls
vec.retain(|x| x.token() == sender.token()), i.e. it keeps precisely the
entries whose token equals the removed sender's token and drops the rest. -/
def ServerInner.remove_client (S : ServerInner) (sender : Sender) : ServerInner :=
  ⟨S.clients.map (fun p => (p.1, p.2.filter (fun x => x.token == sender.token)))⟩

/-- The collection of handles currently registered under res (the spec's
broadcast_targets): the vector in the clients map, or empty when the resource
key is unknown. -/
def ServerInner.broadcast_targets (S : ServerInner) (res : String) : List Sender :=
  (lookupRes S.clients res).getD []

/-- The send loop inside ServerInner::broadcast: sends msg to each Sender in
order via y.send(msg.clone()).unwrap(). sendOk says whether a given handle's
underlying send succeeds; the first failing send makes the unwrap panic,
which aborts the loop. Returns the deliveries actually made and whether the
loop panicked. -/
def sendAll (sendOk : Sender → Bool) (msg : String) :
    List Sender → List (Sender × String) × Bool
  | [] => ([], false)
  | y :: ys =>
    if sendOk y then
      let r := sendAll sendOk msg ys
      ((y, msg) :: r.1, r.2)
    else ([], true)

/-- ServerInner::broadcast from src/src/server.rs: looks up the resource key
in the clients map (self is only borrowed, so the returned registry is the
input one), does nothing when the key is absent, and otherwise runs the send
loop over the vector found. Result: (registry, deliveries, panicked). -/
def ServerInner.broadcast (sendOk : Sender → Bool) (S : ServerInner)
    (res : String) (msg : String) :
    ServerInner × List (Sender × String) × Bool :=
  match lookupRes S.clients res with
  | none => (S, [], false)
  | some xs => (S, sendAll sendOk msg xs)

/-- The dispatcher loop of Server::new in src/src/server.rs: for event in
rx.iter() it broadcasts event.build() to event.get_res(). The std mpsc
channel is embedded as the list of successfully enqueued events in enqueue
order (mpsc delivers messages first-in first-out across all producers). The
trace records each registry-lookup-and-broadcast stage in the order the loop
reaches it, and ends early if a broadcast panics, since the panic kills the
dispatcher thread. -/
def dispatchTrace (sendOk : Sender → Bool) (S : ServerInner) :
    List Event → List (String × String)
  | [] => []
  | e :: rest =>
    let r := ServerInner.broadcast sendOk S e.get_res e.build
    (e.get_res, e.build) :: (if r.2.2 then [] else dispatchTrace sendOk S rest)

/-- The observable system state around a connection-handler call: the
subscription registry, the queue of events enqueued towards the dispatcher,
and the messages sent out to subscribers so far. -/
structure SysState where
  registry : ServerInner
  queue : List Event
  outbox : List (Sender × String)
deriving DecidableEq, Repr

/-- Client::on_message from src/src/client.rs: the body ignores the inbound
message entirely and returns Ok(()). The Bool result is true for Ok. The
incoming-side handler of handle_connection in src/src/lib.rs behaves the
same (try_for_each producing future::ok(())). -/
def Client.on_message (st : SysState) (msg : String) : SysState × Bool :=
  (st, true)

theorem lookupRes_append_of_ne (l : List (String × List Sender)) (res r' : String)
    (v : List Sender) (hne : r' ≠ res) :
    lookupRes (l ++ [(res, v)]) r' = lookupRes l r' := by
  induction l with
  | nil => simp [lookupRes, Ne.symm hne]
  | cons p rest ih => by_cases hp : p.1 = r' <;> simp [lookupRes, hp, ih]

theorem lookupRes_map_update_self (l : List (String × List Sender)) (res : String)
    (h : Sender) :
    lookupRes (l.map (fun p => if p.1 = res then (p.1, p.2 ++ [h]) else p)) res
      = (lookupRes l res).map (fun xs => xs ++ [h]) := by
  induction l with
  | nil => rfl
  | cons p rest ih =>
    by_cases hp : p.1 = res
    · simp [lookupRes, hp]
    · simp [lookupRes, hp, ih]

theorem lookupRes_map_update_of_ne (l : List (String × List Sender)) (res r' : String)
    (h : Sender) (hne : r' ≠ res) :
    lookupRes (l.map (fun p => if p.1 = res then (p.1, p.2 ++ [h]) else p)) r'
      = lookupRes l r' := by
  induction l with
  | nil => rfl
  | cons p rest ih =>
    by_cases hp : p.1 = res
    · have hrr : ¬res = r' := fun h => hne h.symm
      simp [lookupRes, hp, hrr, ih]
    · by_cases hq : p.1 = r' <;> simp [lookupRes, hp, hq, hne, ih]

theorem sendAll_of_all_ok (sendOk : Sender → Bool) (msg : String)
    (xs : List Sender) (hall : ∀ y ∈ xs, sendOk y = true) :
    sendAll sendOk msg xs = (xs.map (fun y => (y, msg)), false) := by
  induction xs with
  | nil => rfl
  | cons y ys ih =>
    have hy : sendOk y = true := hall y (List.mem_cons_self y ys)
    have hys : ∀ z ∈ ys, sendOk z = true := fun z hz => hall z (List.mem_cons_of_mem y hz)
    simp [sendAll, hy, ih hys]

theorem mem_sendAll_fst (sendOk : Sender → Bool) (msg : String) (xs : List Sender)
    (p : Sender × String) (hp : p ∈ (sendAll sendOk msg xs).1) :
    p.1 ∈ xs ∧ p.2 = msg := by
  induction xs with
  | nil => simp [sendAll] at hp
  | cons y ys ih =>
    by_cases hy : sendOk y = true
    · simp only [sendAll, hy, if_pos] at hp
      rcases List.mem_cons.mp hp with h | h
      · subst h
        exact ⟨List.mem_cons_self y ys, rfl⟩
      · rcases ih h with ⟨h1, h2⟩
        exact ⟨List.mem_cons_of_mem y h1, h2⟩
    · simp [sendAll, hy] at hp

theorem broadcast_registry_eq (sendOk : Sender → Bool) (S : ServerInner)
    (res msg : String) :
    (S.broadcast sendOk res msg).1 = S := by
  unfold ServerInner.broadcast
  cases lookupRes S.clients res <;> rfl

theorem sendAll_no_panic (sendOk : Sender → Bool) (msg : String)
    (xs : List Sender) (hall : ∀ y ∈ xs, sendOk y = true) :
    (sendAll sendOk msg xs).2 = false := by
  rw [sendAll_of_all_ok sendOk msg xs hall]

theorem dispatchTrace_of_all_ok (sendOk : Sender → Bool) (S : ServerInner)
    (events : List Event) (hall : ∀ s, sendOk s = true) :
    dispatchTrace sendOk S events = events.map (fun e => (e.get_res, e.build)) := by
  induction events with
  | nil => rfl
  | cons e rest ih =>
    have hb : (ServerInner.broadcast sendOk S e.get_res e.build).2.2 = false := by
      unfold ServerInner.broadcast
      cases lookupRes S.clients e.get_res with
      | none => rfl
      | some xs => exact sendAll_no_panic sendOk e.build xs (fun y _ => hall y)
    simp [dispatchTrace, hb, ih]

/-- C1: the claim states that remove_client evicts every entry matching the
removed handle's identity token and keeps the entries whose token differs.
The code does the opposite: with registry clients = [("/a", [token 1,
token 2])], removing the handle with token 1 keeps exactly the token-1 entry
and evicts the token-2 entry, so the removed handle is still a broadcast
target afterwards while the other subscriber is gone. -/
theorem remove_client_keeps_matching_entries :
    ServerInner.remove_client ⟨[("/a", [⟨1⟩, ⟨2⟩])]⟩ ⟨1⟩ = ⟨[("/a", [⟨1⟩])]⟩ ∧
    (⟨1⟩ : Sender) ∈
      (ServerInner.remove_client ⟨[("/a", [⟨1⟩, ⟨2⟩])]⟩ ⟨1⟩).broadcast_targets "/a" ∧
    (⟨2⟩ : Sender) ∉
      (ServerInner.remove_client ⟨[("/a", [⟨1⟩, ⟨2⟩])]⟩ ⟨1⟩).broadcast_targets "/a" := by
  decide

/-- C2: the claim states that a send failure for one registered handle does
not abort delivery to the remaining handles and is swallowed. In the code the
send loop unwraps each send result, so with handles token 1 and token 2 under
"/r" and token 1's send failing, the broadcast panics with no delivery made:
the second handle never receives the payload and the dispatcher loop aborts. -/
theorem broadcast_send_failure_aborts_loop :
    ServerInner.broadcast (fun s => s.token == 2) ⟨[("/r", [⟨1⟩, ⟨2⟩])]⟩ "/r" "hello"
      = (⟨[("/r", [⟨1⟩, ⟨2⟩])]⟩, [], true) ∧
    (⟨2⟩, "hello") ∉
      (ServerInner.broadcast (fun s => s.token == 2) ⟨[("/r", [⟨1⟩, ⟨2⟩])]⟩
        "/r" "hello").2.1 := by
  decide

/-- C3: with every transport send succeeding, an event is delivered exactly
to the handles registered under its resource path: a handle in the collection
under r receives the payload of a broadcast to r, and receives nothing from a
broadcast to a resource r' it is not registered under. -/
theorem broadcast_delivers_exactly_to_resource (sendOk : Sender → Bool)
    (S : ServerInner) (r r' : String) (h : Sender) (msg msg' : String)
    (hall : ∀ s, sendOk s = true)
    (hreg : h ∈ S.broadcast_targets r)
    (hnot : h ∉ S.broadcast_targets r') :
    (h, msg) ∈ (S.broadcast sendOk r msg).2.1 ∧
    ∀ p ∈ (S.broadcast sendOk r' msg').2.1, p.1 ≠ h := by
  constructor
  · unfold ServerInner.broadcast
    unfold ServerInner.broadcast_targets at hreg
    cases hl : lookupRes S.clients r with
    | none => rw [hl] at hreg; simp at hreg
    | some xs =>
      rw [hl] at hreg
      simp only [Option.getD_some] at hreg
      show (h, msg) ∈ (sendAll sendOk msg xs).1
      rw [sendAll_of_all_ok sendOk msg xs (fun y _ => hall y)]
      exact List.mem_map.mpr ⟨h, hreg, rfl⟩
  · intro p hp hph
    apply hnot
    unfold ServerInner.broadcast at hp
    unfold ServerInner.broadcast_targets
    cases hl : lookupRes S.clients r' with
    | none => rw [hl] at hp; simp at hp
    | some xs =>
      rw [hl] at hp
      have hp' : p ∈ (sendAll sendOk msg' xs).1 := hp
      have hm := (mem_sendAll_fst sendOk msg' xs p hp').1
      rw [hph] at hm
      exact hm

/-- Witness for C3 at a concrete input: the handle with token 1 registered
under "/topic" receives "hello" broadcast to "/topic" and nothing from the
broadcast of "x" to "/other". -/
theorem broadcast_delivers_exactly_to_resource_witness :
    ((⟨1⟩ : Sender), "hello") ∈
      ((⟨[("/topic", [⟨1⟩])]⟩ : ServerInner).broadcast (fun _ => true)
        "/topic" "hello").2.1 ∧
    ∀ p ∈ ((⟨[("/topic", [⟨1⟩])]⟩ : ServerInner).broadcast (fun _ => true)
        "/other" "x").2.1, p.1 ≠ (⟨1⟩ : Sender) :=
  broadcast_delivers_exactly_to_resource (fun _ => true) ⟨[("/topic", [⟨1⟩])]⟩
    "/topic" "/other" ⟨1⟩ "hello" "x" (fun _ => rfl) (by decide) (by decide)

/-- C4: the claim states that removing a handle not present under any
resource key is a no-op. The code's retain keeps only entries matching the
removed token, so removing absent token 2 from clients = [("/a", [token 1])]
empties the collection: the registry changes. -/
theorem remove_client_absent_not_noop :
    ServerInner.remove_client ⟨[("/a", [⟨1⟩])]⟩ ⟨2⟩ = ⟨[("/a", [])]⟩ ∧
    ServerInner.remove_client ⟨[("/a", [⟨1⟩])]⟩ ⟨2⟩ ≠ ⟨[("/a", [⟨1⟩])]⟩ := by
  decide

/-- C5: events reach the registry-lookup-and-broadcast stage strictly in
enqueue order: the dispatch trace is the enqueue-ordered prefix of the event
queue mapped to (resource, payload), with no reordering, and when no
broadcast panics it covers the whole queue, so an event enqueued first is
broadcast first. -/
theorem dispatchTrace_fifo (sendOk : Sender → Bool) (S : ServerInner)
    (events : List Event) :
    (∃ k, dispatchTrace sendOk S events
      = (events.take k).map (fun e => (e.get_res, e.build))) ∧
    ((∀ s, sendOk s = true) →
      dispatchTrace sendOk S events
        = events.map (fun e => (e.get_res, e.build))) := by
  constructor
  · induction events with
    | nil => exact ⟨0, rfl⟩
    | cons e rest ih =>
      by_cases hb : (ServerInner.broadcast sendOk S e.get_res e.build).2.2 = true
      · exact ⟨1, by simp [dispatchTrace, hb]⟩
      · obtain ⟨k, hk⟩ := ih
        exact ⟨k + 1, by simp [dispatchTrace, hb, hk]⟩
  · intro hall
    exact dispatchTrace_of_all_ok sendOk S events hall

/-- Witness for C5 at a concrete input: two events enqueued back to back are
broadcast in exactly that order. -/
theorem dispatchTrace_fifo_witness :
    (∃ k, dispatchTrace (fun _ => true) ⟨[("/a", [⟨1⟩])]⟩
        [⟨"/a", "1"⟩, ⟨"/b", "2"⟩]
      = (([⟨"/a", "1"⟩, ⟨"/b", "2"⟩] : List Event).take k).map
          (fun e => (e.get_res, e.build))) ∧
    dispatchTrace (fun _ => true) ⟨[("/a", [⟨1⟩])]⟩ [⟨"/a", "1"⟩, ⟨"/b", "2"⟩]
      = ([⟨"/a", "1"⟩, ⟨"/b", "2"⟩] : List Event).map
          (fun e => (e.get_res, e.build)) :=
  ⟨(dispatchTrace_fifo (fun _ => true) ⟨[("/a", [⟨1⟩])]⟩
      [⟨"/a", "1"⟩, ⟨"/b", "2"⟩]).1,
   (dispatchTrace_fifo (fun _ => true) ⟨[("/a", [⟨1⟩])]⟩
      [⟨"/a", "1"⟩, ⟨"/b", "2"⟩]).2 (fun _ => rfl)⟩

/-- C6: add_client either inserts a fresh key holding the singleton
collection of the new handle when the resource is unseen, or appends the
handle to the existing collection, never overwriting or dropping previously
registered handles; every other key is untouched, and a duplicate add simply
appends again rather than failing. -/
theorem add_client_inserts_or_appends (S : ServerInner) (res : String)
    (h : Sender) :
    (lookupRes S.clients res = none →
      (S.add_client res h).clients = S.clients ++ [(res, [h])]) ∧
    (∀ xs, lookupRes S.clients res = some xs →
      lookupRes (S.add_client res h).clients res = some (xs ++ [h])) ∧
    (∀ r', r' ≠ res →
      lookupRes (S.add_client res h).clients r' = lookupRes S.clients r') := by
  refine ⟨?_, ?_, ?_⟩
  · intro hn
    unfold ServerInner.add_client
    rw [hn]
  · intro xs hs
    unfold ServerInner.add_client
    rw [hs]
    rw [lookupRes_map_update_self, hs]
    rfl
  · intro r' hne
    unfold ServerInner.add_client
    cases hl : lookupRes S.clients res with
    | none => exact lookupRes_append_of_ne S.clients res r' [h] hne
    | some xs => exact lookupRes_map_update_of_ne S.clients res r' h hne

/-- Witness for C6 at concrete inputs: adding under an unseen resource "/b"
appends a fresh singleton key; adding again under the existing "/a" appends
to its collection; the other key "/b" is untouched by the "/a" add. -/
theorem add_client_inserts_or_appends_witness :
    ((⟨[("/a", [⟨1⟩])]⟩ : ServerInner).add_client "/b" ⟨2⟩).clients
      = [("/a", [⟨1⟩])] ++ [("/b", [⟨2⟩])] ∧
    lookupRes ((⟨[("/a", [⟨1⟩])]⟩ : ServerInner).add_client "/a" ⟨2⟩).clients "/a"
      = some ([⟨1⟩] ++ [⟨2⟩]) ∧
    lookupRes ((⟨[("/a", [⟨1⟩])]⟩ : ServerInner).add_client "/a" ⟨2⟩).clients "/b"
      = lookupRes [("/a", [⟨1⟩])] "/b" :=
  ⟨(add_client_inserts_or_appends ⟨[("/a", [⟨1⟩])]⟩ "/b" ⟨2⟩).1 (by decide),
   (add_client_inserts_or_appends ⟨[("/a", [⟨1⟩])]⟩ "/a" ⟨2⟩).2.1 [⟨1⟩] (by decide),
   (add_client_inserts_or_appends ⟨[("/a", [⟨1⟩])]⟩ "/a" ⟨2⟩).2.2 "/b" (by decide)⟩

/-- C7: broadcasting to a resource path that has no key in the registry is
not an error: zero targets, no deliveries, no panic, and the registry comes
back unchanged. -/
theorem broadcast_unknown_resource (sendOk : Sender → Bool) (S : ServerInner)
    (res msg : String) (hunk : lookupRes S.clients res = none) :
    S.broadcast_targets res = [] ∧
    S.broadcast sendOk res msg = (S, [], false) := by
  constructor
  · unfold ServerInner.broadcast_targets
    rw [hunk]
    rfl
  · unfold ServerInner.broadcast
    rw [hunk]

/-- Witness for C7 at a concrete input: the registry knows only "/a", and a
broadcast to "/nope" has zero targets, sends nothing and changes nothing. -/
theorem broadcast_unknown_resource_witness :
    (⟨[("/a", [⟨1⟩])]⟩ : ServerInner).broadcast_targets "/nope" = [] ∧
    (⟨[("/a", [⟨1⟩])]⟩ : ServerInner).broadcast (fun _ => true) "/nope" "m"
      = (⟨[("/a", [⟨1⟩])]⟩, [], false) :=
  broadcast_unknown_resource (fun _ => true) ⟨[("/a", [⟨1⟩])]⟩ "/nope" "m"
    (by decide)

/-- C8: remove_client is idempotent: for every registry state and handle,
removing the same handle twice in a row leaves the registry exactly as
removing it once (retaining with the same predicate twice equals retaining
once). -/
theorem remove_client_idempotent (S : ServerInner) (h : Sender) :
    (S.remove_client h).remove_client h = S.remove_client h := by
  simp [ServerInner.remove_client, List.map_map, Function.comp, List.filter_filter]

/-- C9: an inbound message from a subscriber connection is never interpreted
or relayed: the handler returns Ok and leaves the subscription registry, the
event queue and the outbox of subscriber-bound sends exactly as they were. -/
theorem on_message_no_effect (st : SysState) (m : String) :
    (Client.on_message st m).1.registry = st.registry ∧
    (Client.on_message st m).1.queue = st.queue ∧
    (Client.on_message st m).1.outbox = st.outbox ∧
    (Client.on_message st m).2 = true :=
  ⟨rfl, rfl, rfl, rfl⟩

/-- C10: serialization is eager and happens exactly once at construction:
Event.new stores serialize x, build returns exactly that string, the
instrumented construction performs exactly one serialize call, and every
subsequent build leaves the call counter untouched while returning the same
string. -/
theorem event_serialization_eager_once {α : Type} (serialize : α → String)
    (res : String) (x : α) (calls : Nat) :
    (Event.new serialize res x).build = serialize x ∧
    (Event.newCounted serialize res x calls).2 = calls + 1 ∧
    (∀ c, ((Event.newCounted serialize res x calls).1.buildCounted c).2 = c) ∧
    (∀ c, ((Event.newCounted serialize res x calls).1.buildCounted c).1
        = (Event.new serialize res x).build) :=
  ⟨rfl, rfl, fun _ => rfl, fun _ => rfl⟩

end PushEvent
